import Mathlib

/-!
Shallow embedding of the youtube-feels-meter core pipeline:
title parsing (`titleParser.js`), fuzzy matching (`stringMatcher.js`),
genre-based feature inference (`GenreAudioAnalyzerService`),
the feels-score engine (`feels.calculator.js`) and the in-memory
fallback of the cache (`cache.service.js`).

JavaScript strings are modelled as `List Char` (`JStr`), numbers as `ℚ`
(with `Math.round`/`Math.floor` made explicit), nullable values as
`Option`, and JSON-ish cache payloads as an inductive `JsVal` with JS
truthiness.  All definitions are computable so concrete runs can be
checked with `decide`.
-/

namespace FeelsMeter

/-- JavaScript strings, modelled as lists of characters. -/
abbrev JStr := List Char

/-- ASCII whitespace recognised by the JS `\s` class (the titles and keys
handled by the program are ASCII). -/
def jsWs (c : Char) : Bool :=
  c = ' ' || c = '\t' || c = '\n' || c = '\r' || c = '\x0b' || c = '\x0c'

/-- `String.prototype.toLowerCase` restricted to ASCII case mapping. -/
def lowerStr (s : JStr) : JStr := s.map Char.toLower

/-- Drop trailing whitespace. -/
def dropTrailingWs (s : JStr) : JStr := (s.reverse.dropWhile jsWs).reverse

/-- `String.prototype.trim`. -/
def trimStr (s : JStr) : JStr := dropTrailingWs (s.dropWhile jsWs)

/-- Does `pre` occur at the front of `s`? -/
def matchesFront : JStr → JStr → Bool
  | [], _ => true
  | _ :: _, [] => false
  | a :: as, b :: bs => a == b && matchesFront as bs

/-- `String.prototype.includes`: does `needle` occur anywhere in `hay`? -/
def containsSub (needle : JStr) : JStr → Bool
  | [] => matchesFront needle []
  | c :: cs => matchesFront needle (c :: cs) || containsSub needle cs

/-- Does `suf` occur at the end of `s`? -/
def endsWithList (suf s : JStr) : Bool := matchesFront suf.reverse s.reverse

/-- Helper of `collapseWs`; the flag records whether the previous
character belonged to a whitespace run already replaced by one space. -/
def collapseWsAux (inRun : Bool) : JStr → JStr
  | [] => []
  | c :: cs =>
    if jsWs c then
      if inRun then collapseWsAux true cs else ' ' :: collapseWsAux true cs
    else c :: collapseWsAux false cs

/-- `.replace(/\s+/g, ' ')`: collapse every whitespace run to one space. -/
def collapseWs (s : JStr) : JStr := collapseWsAux false s

/-- The JS `\w` word-character class `[A-Za-z0-9_]`. -/
def isWordChar (c : Char) : Bool := c.isAlphanum || c = '_'

/-- A `\b` boundary holds before the current position given the previous
character (`none` at the start of the string). -/
def boundaryAfter (prev : Option Char) : Bool :=
  match prev with
  | none => true
  | some c => !(isWordChar c)

/-- `w` matches at the front of `rest` with a `\b` boundary after it. -/
def wordHere (w rest : JStr) : Bool :=
  matchesFront w rest &&
    (match rest.drop w.length with
     | [] => true
     | c :: _ => !(isWordChar c))

/-- Scan `rest` for an occurrence of `w` flanked by `\b` boundaries;
`prev` is the character immediately before `rest`. -/
def hasWordAux (w : JStr) (prev : Option Char) : JStr → Bool
  | [] => boundaryAfter prev && wordHere w []
  | c :: cs => (boundaryAfter prev && wordHere w (c :: cs)) || hasWordAux w (some c) cs

/-- `title.match(/\b(w1|w2|...)\b/) !== null` for a list of plain words. -/
def hasAnyWord (words : List JStr) (title : JStr) : Bool :=
  words.any fun w => hasWordAux w none title

/-- `Math.round` in JS: half-up rounding towards `+∞`. -/
def jsRound (x : ℚ) : ℤ := ⌊x + 1/2⌋

/-! ## stringMatcher.js -/

/-- The DP matrix of `levenshteinDistance`: `levMatrix s1 s2 i j` is
`matrix[i][j]` of the source, where row index `i` ranges over `str2`
and column index `j` over `str1`. -/
def levMatrix (s1 s2 : JStr) : ℕ → ℕ → ℕ
  | 0, j => j
  | i + 1, 0 => i + 1
  | i + 1, j + 1 =>
    if s2.getD i ' ' == s1.getD j ' ' then
      levMatrix s1 s2 i j
    else
      min (levMatrix s1 s2 i j + 1)
        (min (levMatrix s1 s2 (i + 1) j + 1) (levMatrix s1 s2 i (j + 1) + 1))
termination_by i j => (i, j)

/-- `levenshteinDistance(str1, str2)` returns `matrix[str2.length][str1.length]`. -/
def levenshteinDistance (s1 s2 : JStr) : ℕ :=
  levMatrix s1 s2 s2.length s1.length

/-- `similarityRatio(str1, str2)`: 0 when either input is falsy (empty),
1 on case-insensitive trimmed equality, otherwise normalised edit
distance. -/
def similarityRatio (str1 str2 : JStr) : ℚ :=
  if str1 = [] ∨ str2 = [] then 0
  else
    let s1 := trimStr (lowerStr str1)
    let s2 := trimStr (lowerStr str2)
    if s1 = s2 then 1
    else
      let maxLength := max s1.length s2.length
      if maxLength = 0 then 1
      else 1 - (levenshteinDistance s1 s2 : ℚ) / (maxLength : ℚ)

/-! ## titleParser.js -/

/-- The `COMMON_SUFFIXES` decoration list, in source order. -/
def COMMON_SUFFIXES : List JStr :=
  [ "(official video)".data,
    "(official music video)".data,
    "(official audio)".data,
    "(lyric video)".data,
    "(lyrics)".data,
    "[official video]".data,
    "[official music video]".data,
    "[official audio]".data,
    "(music video)".data,
    "(audio)".data,
    "(hd)".data,
    "(4k)".data,
    "(explicit)".data,
    "(clean)".data,
    "(radio edit)".data,
    "(extended)".data,
    "(remix)".data,
    "(remastered)".data ]

/-- One `cleaned.replace(new RegExp(escaped(suffix) + '\s*$', 'gi'), '')`
step: the anchored pattern matches exactly when the string, minus its
trailing whitespace, ends with the (non-whitespace-containing) suffix,
and then removes that suffix together with the trailing whitespace. -/
def stripSuffixOnce (s suffix : JStr) : JStr :=
  let core := dropTrailingWs s
  if endsWithList suffix core then core.take (core.length - suffix.length) else s

/-- `cleanTitle`: lowercase, strip each known decoration once in list
order, then trim and collapse whitespace. -/
def cleanTitle (title : JStr) : JStr :=
  let cleaned := lowerStr title
  let cleaned := COMMON_SUFFIXES.foldl stripSuffixOnce cleaned
  collapseWs (trimStr cleaned)

/-- `calculateConfidence(artist, song, channelTitle)` of titleParser.js;
`artist`/`song` are the (possibly empty, hence falsy) trimmed strings. -/
def titleConfidence (artist song channelTitle : JStr) : ℚ :=
  let c : ℚ := 0.5
  let c := if artist ≠ [] ∧ song ≠ [] ∧ lowerStr artist ≠ lowerStr song then c + 0.2 else c
  let c :=
    if artist ≠ [] ∧ channelTitle ≠ [] ∧
        (containsSub (lowerStr artist) (lowerStr channelTitle) ∨
         containsSub (lowerStr channelTitle) (lowerStr artist)) then c + 0.2 else c
  let c := if artist ≠ [] ∧ song ≠ [] ∧ 2 < artist.length ∧ 2 < song.length then c + 0.1 else c
  min c 1

/-- Index of the first occurrence of `c` in `s`, if any. -/
def firstIdx (c : Char) (s : JStr) : Option ℕ := s.findIdx? (fun x => x == c)

/-- Pattern 1/3/4 (`^([^X]+)X?\s*(.+)$` for a separator character `X`):
succeeds when the first `X` has at least one character before it and at
least one after it; both groups are trimmed by the caller. -/
def splitFirstChar (sep : Char) (s : JStr) : Option (JStr × JStr) :=
  match firstIdx sep s with
  | none => none
  | some i =>
    if 1 ≤ i ∧ i + 1 < s.length then some (trimStr (s.take i), trimStr (s.drop (i + 1)))
    else none

/-- Positions where `^(.+)\s+by\s+(.+)$` can split `s`.  `parseVideoTitle`
applies its patterns to the output of `cleanTitle`, where whitespace runs
are single spaces, so the separator is the literal `" by "` with a
nonempty prefix and suffix; the greedy `(.+)` picks the rightmost one. -/
def bySplitCandidates (s : JStr) : List ℕ :=
  (List.range s.length).filter fun i =>
    1 ≤ i ∧ matchesFront " by ".data (s.drop i) ∧ i + 4 < s.length

/-- Pattern 2: split at the rightmost `" by "`. -/
def splitBy (s : JStr) : Option (JStr × JStr) :=
  match (bySplitCandidates s).getLast? with
  | none => none
  | some i => some (trimStr (s.take i), trimStr (s.drop (i + 4)))

/-- `.replace(/word$/i, '')`: drop a case-insensitive literal suffix. -/
def stripEndCI (w s : JStr) : JStr :=
  if endsWithList w (lowerStr s) then s.take (s.length - w.length) else s

/-- Result record of `parseVideoTitle` (`null` fields become `none`). -/
structure ParsedTitle where
  artist : Option JStr
  song : Option JStr
  confidence : ℚ
  deriving Repr, DecidableEq

/-- `parseVideoTitle(title, channelTitle = '')`.  An empty title is falsy
and short-circuits; patterns run in source order on the cleaned title. -/
def parseVideoTitle (title : JStr) (channelTitle : JStr := []) : ParsedTitle :=
  if title = [] then ⟨none, none, 0⟩
  else
    let cleaned := cleanTitle title
    match splitFirstChar '-' cleaned with
    | some (a, s) => ⟨some a, some s, titleConfidence a s channelTitle⟩
    | none =>
      match splitBy cleaned with
      | some (s, a) => ⟨some a, some s, titleConfidence a s channelTitle⟩
      | none =>
        match splitFirstChar ':' cleaned with
        | some (a, s) => ⟨some a, some s, titleConfidence a s channelTitle⟩
        | none =>
          match splitFirstChar '|' cleaned with
          | some (a, s) => ⟨some a, some s, titleConfidence a s channelTitle⟩
          | none =>
            if channelTitle ≠ [] then
              let artist :=
                trimStr (stripEndCI "music".data
                  (stripEndCI "official".data (stripEndCI "vevo".data channelTitle)))
              ⟨some artist, some cleaned, 0.4⟩
            else ⟨none, some cleaned, 0.3⟩

/-! ## feels.calculator.js -/

/-- Input object of `calculateFeelsScore`; destructuring defaults apply
field-wise when a field is absent. -/
structure AudioFeaturesIn where
  energy : Option ℚ := none
  tempo : Option ℚ := none
  danceability : Option ℚ := none
  loudness : Option ℚ := none
  valence : Option ℚ := none
  acousticness : Option ℚ := none
  deriving Repr, DecidableEq

/-- `calculateFeelsScore(audioFeatures)`; a null/undefined argument is the
`none` case. -/
def calculateFeelsScore (audioFeatures : Option AudioFeaturesIn) : ℤ :=
  match audioFeatures with
  | none => 50
  | some f =>
    let energy := f.energy.getD 0.5
    let tempo := f.tempo.getD 120
    let danceability := f.danceability.getD 0.5
    let loudness := f.loudness.getD (-10)
    let valence := f.valence.getD 0.5
    let acousticness := f.acousticness.getD 0.5
    let normalizedEnergy := max 0 (min 1 energy)
    let normalizedTempo := max 0 (min 1 (tempo / 200))
    let normalizedDanceability := max 0 (min 1 danceability)
    let normalizedLoudness := max 0 (min 1 ((loudness + 30) / 25))
    let normalizedValence := max 0 (min 1 valence)
    let normalizedAcousticness := max 0 (min 1 (1 - acousticness))
    let score :=
      (normalizedEnergy * 0.40 +
       normalizedTempo * 0.25 +
       normalizedDanceability * 0.15 +
       normalizedLoudness * 0.10 +
       normalizedValence * 0.05 +
       normalizedAcousticness * 0.05) * 100
    jsRound (max 0 (min 100 score))

/-- `getMoodLabel(score)`. -/
def getMoodLabel (score : ℤ) : String :=
  if score < 20 then "Very Chill"
  else if score < 40 then "Relaxed"
  else if score < 60 then "Moderate"
  else if score < 80 then "Energetic"
  else "Intense"

/-- A video item as seen by the collection helpers: a `feelsScore` field
(absent/null modelled as `none`) plus an opaque tag standing for the
other fields of the object. -/
structure SVideo where
  tag : ℕ
  feelsScore : Option ℤ
  deriving Repr, DecidableEq

/-- `v.feelsScore || 50`: JS falsy scores (absent, null and `0`) fall
back to 50. -/
def effScore (v : SVideo) : ℤ :=
  match v.feelsScore with
  | none => 50
  | some n => if n = 0 then 50 else n

/-- The comparator passed to `Array.prototype.sort`. -/
def sortCmp (order : String) (a b : SVideo) : ℤ :=
  if order = "asc" then effScore a - effScore b else effScore b - effScore a

/-- Stable insertion: place `x` before the first element `y` of the
already-sorted tail with `c y x ≥ 0` (elements of the tail come later in
the original array, so ties keep the original order, as JS sort is
stable). -/
def insertCmp (c : SVideo → SVideo → ℤ) (x : SVideo) : List SVideo → List SVideo
  | [] => [x]
  | y :: ys => if c y x < 0 then y :: insertCmp c x ys else x :: y :: ys

/-- Stable comparator sort modelling `[...videos].sort(cmp)`. -/
def sortWithCmp (c : SVideo → SVideo → ℤ) : List SVideo → List SVideo
  | [] => []
  | x :: xs => insertCmp c x (sortWithCmp c xs)

/-- `sortByFeelsScore(videos, order = 'asc')`. -/
def sortByFeelsScore (videos : List SVideo) (order : String := "asc") : List SVideo :=
  if videos = [] then []
  else sortWithCmp (sortCmp order) videos

/-- The `ranges` sub-object of `getScoreDistribution`. -/
structure ScoreRanges where
  chill : ℕ
  relaxed : ℕ
  moderate : ℕ
  energetic : ℕ
  intense : ℕ
  deriving Repr, DecidableEq

/-- The result object of `getScoreDistribution`. -/
structure Distribution where
  total : ℕ
  average : ℤ
  min : ℤ
  max : ℤ
  ranges : ScoreRanges
  deriving Repr, DecidableEq

/-- `Math.min(...scores)` on a nonempty score list. -/
def minScores : List ℤ → ℤ
  | [] => 0
  | s :: rest => rest.foldl min s

/-- `Math.max(...scores)` on a nonempty score list. -/
def maxScores : List ℤ → ℤ
  | [] => 0
  | s :: rest => rest.foldl max s

/-- `getScoreDistribution(videos)`. -/
def getScoreDistribution (videos : List SVideo) : Distribution :=
  if videos = [] then ⟨0, 0, 0, 0, ⟨0, 0, 0, 0, 0⟩⟩
  else
    let scores := videos.map effScore
    let sum := scores.sum
    { total := videos.length
      average := jsRound ((sum : ℚ) / (videos.length : ℚ))
      min := minScores scores
      max := maxScores scores
      ranges :=
        { chill := (scores.filter fun s => s < 20).length
          relaxed := (scores.filter fun s => 20 ≤ s ∧ s < 40).length
          moderate := (scores.filter fun s => 40 ≤ s ∧ s < 60).length
          energetic := (scores.filter fun s => 60 ≤ s ∧ s < 80).length
          intense := (scores.filter fun s => 80 ≤ s).length } }

/-! ## GenreAudioAnalyzerService (genre-based audio analyzer) -/

/-- A six-dimensional audio-feature profile from the genre table. -/
structure GFeat where
  energy : ℚ
  tempo : ℚ
  danceability : ℚ
  loudness : ℚ
  valence : ℚ
  acousticness : ℚ
  deriving Repr, DecidableEq

/-- The `'pop'` entry, referenced both in the map and as the no-match
fallback (`this.genreMap['pop']`). -/
def popFeat : GFeat := ⟨0.65, 118, 0.7, -6, 0.7, 0.15⟩

/-- `buildGenreMap()`: the static pattern → profile table, in object
literal (= `Object.entries`) order. -/
def genreMap : List (JStr × GFeat) :=
  [ ("metal".data, ⟨0.95, 160, 0.5, -5, 0.5, 0.1⟩),
    ("heavy metal".data, ⟨0.98, 170, 0.45, -4, 0.4, 0.05⟩),
    ("death metal".data, ⟨1.0, 180, 0.4, -3, 0.3, 0.02⟩),
    ("punk".data, ⟨0.9, 170, 0.6, -5, 0.5, 0.15⟩),
    ("hardcore".data, ⟨0.95, 180, 0.55, -4, 0.4, 0.1⟩),
    ("rock".data, ⟨0.75, 130, 0.55, -6, 0.6, 0.2⟩),
    ("hard rock".data, ⟨0.85, 140, 0.6, -5, 0.55, 0.15⟩),
    ("alternative".data, ⟨0.65, 120, 0.55, -7, 0.5, 0.25⟩),
    ("electronic".data, ⟨0.8, 128, 0.85, -6, 0.7, 0.05⟩),
    ("techno".data, ⟨0.85, 130, 0.9, -5, 0.6, 0.02⟩),
    ("house".data, ⟨0.8, 125, 0.9, -6, 0.75, 0.05⟩),
    ("trance".data, ⟨0.85, 138, 0.85, -5, 0.7, 0.03⟩),
    ("dubstep".data, ⟨0.9, 140, 0.8, -4, 0.6, 0.02⟩),
    ("drum and bass".data, ⟨0.92, 170, 0.85, -5, 0.65, 0.03⟩),
    ("edm".data, ⟨0.88, 128, 0.9, -4, 0.8, 0.02⟩),
    ("dance".data, ⟨0.8, 125, 0.92, -6, 0.8, 0.05⟩),
    ("hip hop".data, ⟨0.7, 95, 0.8, -6, 0.6, 0.1⟩),
    ("rap".data, ⟨0.7, 95, 0.75, -6, 0.6, 0.1⟩),
    ("trap".data, ⟨0.75, 140, 0.8, -5, 0.55, 0.05⟩),
    ("pop".data, popFeat),
    ("indie pop".data, ⟨0.6, 115, 0.65, -7, 0.65, 0.3⟩),
    ("synth pop".data, ⟨0.7, 120, 0.75, -6, 0.75, 0.1⟩),
    ("r&b".data, ⟨0.55, 90, 0.65, -8, 0.6, 0.25⟩),
    ("soul".data, ⟨0.6, 95, 0.6, -8, 0.65, 0.4⟩),
    ("funk".data, ⟨0.75, 110, 0.85, -7, 0.75, 0.2⟩),
    ("jazz".data, ⟨0.45, 105, 0.5, -12, 0.55, 0.7⟩),
    ("blues".data, ⟨0.5, 90, 0.45, -10, 0.4, 0.6⟩),
    ("classical".data, ⟨0.4, 100, 0.2, -15, 0.5, 0.95⟩),
    ("orchestral".data, ⟨0.45, 105, 0.2, -13, 0.55, 0.95⟩),
    ("country".data, ⟨0.55, 110, 0.6, -8, 0.65, 0.6⟩),
    ("folk".data, ⟨0.45, 100, 0.45, -10, 0.55, 0.8⟩),
    ("acoustic".data, ⟨0.4, 95, 0.4, -12, 0.6, 0.9⟩),
    ("ambient".data, ⟨0.2, 70, 0.3, -18, 0.5, 0.4⟩),
    ("chillout".data, ⟨0.25, 80, 0.35, -15, 0.6, 0.35⟩),
    ("downtempo".data, ⟨0.3, 85, 0.4, -14, 0.55, 0.3⟩),
    ("lounge".data, ⟨0.35, 90, 0.45, -13, 0.6, 0.4⟩),
    ("reggae".data, ⟨0.55, 80, 0.75, -8, 0.7, 0.3⟩),
    ("latin".data, ⟨0.7, 115, 0.85, -7, 0.75, 0.25⟩),
    ("salsa".data, ⟨0.75, 120, 0.9, -6, 0.8, 0.3⟩),
    ("indie".data, ⟨0.55, 110, 0.55, -8, 0.55, 0.35⟩),
    ("indie rock".data, ⟨0.65, 120, 0.6, -7, 0.6, 0.25⟩),
    ("experimental".data, ⟨0.5, 110, 0.4, -10, 0.45, 0.3⟩),
    ("noise".data, ⟨0.85, 120, 0.3, -4, 0.3, 0.1⟩) ]

/-- The profiles whose pattern occurs in the lowercased joined tag
string (the loop body of `analyzeGenres`). -/
def matchedProfiles (genres : List JStr) : List GFeat :=
  let genreStr := lowerStr (List.intercalate " ".data genres)
  (genreMap.filter fun p => containsSub p.1 genreStr).map Prod.snd

/-- `analyzeGenres(genres)`: average of all matched profiles, tempo
rounded; `pop` baseline when nothing matches. -/
def analyzeGenres (genres : List JStr) : GFeat :=
  let matched := matchedProfiles genres
  if matched = [] then popFeat
  else
    let count : ℚ := matched.length
    { energy := (matched.map GFeat.energy).sum / count
      tempo := ((jsRound ((matched.map GFeat.tempo).sum / count) : ℤ) : ℚ)
      danceability := (matched.map GFeat.danceability).sum / count
      loudness := (matched.map GFeat.loudness).sum / count
      valence := (matched.map GFeat.valence).sum / count
      acousticness := (matched.map GFeat.acousticness).sum / count }

def energeticWords : List JStr :=
  ["rage".data, "aggressive".data, "intense".data, "power".data, "extreme".data, "brutal".data]

def chillWords : List JStr :=
  ["chill".data, "calm".data, "relax".data, "peaceful".data, "ambient".data, "slow".data, "soft".data]

def happyWords : List JStr :=
  ["happy".data, "joy".data, "sunshine".data, "bright".data, "upbeat".data, "party".data]

def sadWords : List JStr :=
  ["sad".data, "blue".data, "tears".data, "lonely".data, "heartbreak".data, "melancholy".data]

def acousticWords : List JStr :=
  ["acoustic".data, "unplugged".data, "stripped".data, "piano".data, "guitar".data]

/-- `adjustForTitleKeywords(song, features)`: five independent keyword
classes applied in source order (later classes see earlier updates);
a falsy (absent or empty) song leaves the features untouched. -/
def adjustForTitleKeywords (song : Option JStr) (features : GFeat) : GFeat :=
  match song with
  | none => features
  | some s =>
    if s = [] then features
    else
      let title := lowerStr s
      let f := features
      let f := if hasAnyWord energeticWords title then
          { f with energy := min 1 (f.energy + 0.2), loudness := min (-5) (f.loudness + 2) }
        else f
      let f := if hasAnyWord chillWords title then
          { f with energy := max 0.1 (f.energy - 0.2), tempo := max 60 (f.tempo - 20) }
        else f
      let f := if hasAnyWord happyWords title then
          { f with valence := min 1 (f.valence + 0.2) }
        else f
      let f := if hasAnyWord sadWords title then
          { f with valence := max 0.1 (f.valence - 0.3), energy := max 0.2 (f.energy - 0.1) }
        else f
      let f := if hasAnyWord acousticWords title then
          { f with acousticness := min 1 (f.acousticness + 0.3) }
        else f
      f

/-- A `null`/`undefined` value interpolated by a JS template literal
renders as the word "null"/"undefined"; neither contains any signal
keyword, so both are modelled by the keyword-free literal "null". -/
def jsTemplateStr (s : Option JStr) : JStr :=
  match s with
  | some t => t
  | none => "null".data

def classicalWords : List JStr :=
  ["symphony".data, "concerto".data, "sonata".data, "mozart".data, "beethoven".data, "bach".data]

def electronicWords : List JStr :=
  ["dj".data, "remix".data, "mix".data, "dubstep".data, "techno".data, "edm".data, "electronic".data]

/-- `inferFromNames(artist, song)`: canned vectors chosen by scanning the
combined name string. -/
def inferFromNames (artist song : Option JStr) : GFeat :=
  let combined := lowerStr (jsTemplateStr artist ++ " ".data ++ jsTemplateStr song)
  if hasAnyWord classicalWords combined then ⟨0.4, 100, 0.2, -12, 0.5, 0.95⟩
  else if hasAnyWord electronicWords combined then ⟨0.8, 128, 0.85, -6, 0.7, 0.05⟩
  else ⟨0.5, 120, 0.5, -10, 0.5, 0.5⟩

/-- `calculateConfidence(genres)` of the analyzer: a step function of the
number of genre tags. -/
def genreConfidence (genres : List JStr) : ℚ :=
  if genres.length = 0 then 0.3
  else if genres.length = 1 then 0.6
  else if 3 ≤ genres.length then 0.8
  else 0.7

/-- Result object of `inferAudioFeatures`; in the empty-genres branch the
whole features object is replaced by the `inferFromNames` result, which
carries no `source` field, hence `source : Option String`. -/
structure InferredFeatures where
  energy : ℚ
  tempo : ℚ
  danceability : ℚ
  loudness : ℚ
  valence : ℚ
  acousticness : ℚ
  confidence : ℚ
  source : Option String
  deriving Repr, DecidableEq

/-- `inferAudioFeatures({artist, song, genres = []})`. -/
def inferAudioFeatures (artist song : Option JStr) (genres : List JStr) : InferredFeatures :=
  if genres = [] then
    let g := inferFromNames artist song
    ⟨g.energy, g.tempo, g.danceability, g.loudness, g.valence, g.acousticness, 0.3, none⟩
  else
    let base := analyzeGenres genres
    let adj := adjustForTitleKeywords song base
    ⟨adj.energy, adj.tempo, adj.danceability, adj.loudness, adj.valence, adj.acousticness,
      genreConfidence genres, some "genre-heuristic"⟩

/-! ## cache.service.js (in-memory fallback mode, `isRedisAvailable = false`;
in that mode `get`, `exists` and `mget` reduce to
`getFromMemory` / `memoryCache.has` / `keys.map(getFromMemory)`). -/

/-- JSON-serialisable cached values with JS truthiness; `vObj n` stands
for any (always truthy) object or array payload. -/
inductive JsVal where
  | vNull : JsVal
  | vBool : Bool → JsVal
  | vNum : ℚ → JsVal
  | vStr : JStr → JsVal
  | vObj : ℕ → JsVal
  deriving Repr, DecidableEq

/-- JS truthiness of a stored value. -/
def truthy : JsVal → Bool
  | .vNull => false
  | .vBool b => b
  | .vNum q => q ≠ 0
  | .vStr s => s ≠ []
  | .vObj _ => true

/-- `Map.prototype.get` on an association list. -/
def lookupA {β : Type} (m : List (String × β)) (key : String) : Option β :=
  (m.find? fun p => p.1 = key).map Prod.snd

/-- `Map.prototype.delete`. -/
def removeA {β : Type} (m : List (String × β)) (key : String) : List (String × β) :=
  m.filter fun p => p.1 ≠ key

/-- The two parallel maps of the in-memory fallback. -/
structure CacheState where
  memoryCache : List (String × JsVal)
  ttlMap : List (String × ℤ)
  deriving Repr, DecidableEq

/-- `getFromMemory(key)` at time `now` (`Date.now()`): an existing,
nonzero (truthy) and elapsed expiry deletes the entry and yields null;
otherwise the stored value is returned, with any falsy value (or a
missing one) collapsed to null by `|| null`. -/
def getFromMemory (now : ℤ) (st : CacheState) (key : String) : JsVal × CacheState :=
  match lookupA st.ttlMap key with
  | some e =>
    if e ≠ 0 ∧ now > e then
      (.vNull, ⟨removeA st.memoryCache key, removeA st.ttlMap key⟩)
    else
      match lookupA st.memoryCache key with
      | some v => (if truthy v then v else .vNull, st)
      | none => (.vNull, st)
  | none =>
    match lookupA st.memoryCache key with
    | some v => (if truthy v then v else .vNull, st)
    | none => (.vNull, st)

/-- `exists(key)` in memory mode: `this.memoryCache.has(key)`. -/
def existsKey (st : CacheState) (key : String) : Bool :=
  (lookupA st.memoryCache key).isSome

/-- `mget(keys)` in memory mode: `keys.map(key => this.getFromMemory(key))`,
with the lazy-expiry deletions threaded through. -/
def mgetMemory (now : ℤ) (st : CacheState) : List String → List JsVal × CacheState
  | [] => ([], st)
  | k :: ks =>
    let r := getFromMemory now st k
    let rest := mgetMemory now r.2 ks
    (r.1 :: rest.1, rest.2)

/-- The confidence step function exactly as the spec words it: a
function of the number of distinct matched genre profiles
(0 → 0.3, 1 → 0.6, 2 → 0.7, ≥3 → 0.8), for comparison against the code. -/
def specConfidenceOfMatched (n : ℕ) : ℚ :=
  if n = 0 then 0.3 else if n = 1 then 0.6 else if n = 2 then 0.7 else 0.8

/-- The key is already expired (with a truthy timestamp) or gone from
the value map: the invariant preserved along a chain of memory reads. -/
def expiredOrGone (now : ℤ) (st : CacheState) (key : String) : Prop :=
  (∃ e, lookupA st.ttlMap key = some e ∧ e ≠ 0 ∧ now > e) ∨
    lookupA st.memoryCache key = none

/-- Interval bounds satisfied by every entry of the static genre table
(and by its averages). -/
def tightBounds (g : GFeat) : Prop :=
  0.2 ≤ g.energy ∧ g.energy ≤ 1 ∧ 70 ≤ g.tempo ∧ g.tempo ≤ 180 ∧
  0.2 ≤ g.danceability ∧ g.danceability ≤ 0.92 ∧ -18 ≤ g.loudness ∧ g.loudness ≤ -3 ∧
  0.3 ≤ g.valence ∧ g.valence ≤ 0.8 ∧ 0.02 ≤ g.acousticness ∧ g.acousticness ≤ 0.95

/-- The bounds actually guaranteed by the analyzer: the documented ones
except that loudness only stays below -3, not -5. -/
def looseBounds (g : GFeat) : Prop :=
  0 ≤ g.energy ∧ g.energy ≤ 1 ∧ 60 ≤ g.tempo ∧ g.tempo ≤ 200 ∧
  0 ≤ g.danceability ∧ g.danceability ≤ 1 ∧ -30 ≤ g.loudness ∧ g.loudness ≤ -3 ∧
  0 ≤ g.valence ∧ g.valence ≤ 1 ∧ 0 ≤ g.acousticness ∧ g.acousticness ≤ 1

instance (g : GFeat) : Decidable (tightBounds g) := by
  unfold tightBounds
  infer_instance

instance (g : GFeat) : Decidable (looseBounds g) := by
  unfold looseBounds
  infer_instance

/-- The six feature dimensions of an `inferAudioFeatures` result lie in
the documented intervals, with the loudness upper bound corrected from
-5 to -3. -/
def inferredInBounds (r : InferredFeatures) : Prop :=
  0 ≤ r.energy ∧ r.energy ≤ 1 ∧ 60 ≤ r.tempo ∧ r.tempo ≤ 200 ∧
  0 ≤ r.danceability ∧ r.danceability ≤ 1 ∧ -30 ≤ r.loudness ∧ r.loudness ≤ -3 ∧
  0 ≤ r.valence ∧ r.valence ≤ 1 ∧ 0 ≤ r.acousticness ∧ r.acousticness ≤ 1

/-! ## Theorems -/

/-- C7: `calculateFeelsScore` applied to a missing (null) FeatureVector
returns exactly 50 (total function, no error case exists). -/
theorem calculateFeelsScore_null_eq_50 : calculateFeelsScore none = 50 := rfl

/-- C6: for the maximum-intensity FeatureVector (energy 1, tempo 180,
danceability 1, loudness -5, valence 1, acousticness 0) the score is 98,
strictly above 80, and its mood label is the Intense band. -/
theorem feelsScore_max_intensity :
    calculateFeelsScore (some ⟨some 1, some 180, some 1, some (-5), some 1, some 0⟩) = 98 ∧
    80 < calculateFeelsScore (some ⟨some 1, some 180, some 1, some (-5), some 1, some 0⟩) ∧
    getMoodLabel
      (calculateFeelsScore (some ⟨some 1, some 180, some 1, some (-5), some 1, some 0⟩)) =
      "Intense" := by
  refine ⟨?_, ?_, ?_⟩ <;> with_unfolding_all decide

/-- C5 counterexample: the empty string is falsy, so
`similarityRatio("", "")` is 0, not 1. -/
theorem similarityRatio_empty_self_eq_zero :
    similarityRatio [] [] = 0 ∧ similarityRatio [] [] ≠ 1 := by decide

/-- C5 amended: for every nonempty string `s` (including whitespace-only
strings), `similarityRatio(s, s) = 1.0`; the empty string instead hits
the falsy-input guard and yields 0. -/
theorem similarityRatio_self (s : JStr) (h : s ≠ []) : similarityRatio s s = 1 := by
  unfold similarityRatio
  rw [if_neg (by simp [h])]
  simp

/-- Witness for the amended C5 theorem at the whitespace-only string " ". -/
theorem similarityRatio_self_witness : similarityRatio " ".data " ".data = 1 :=
  similarityRatio_self " ".data (by decide)

set_option maxRecDepth 8000 in
/-- C4 counterexample: the title "song (radio edit) (4k) (hd)" ends in
three stacked known decorations, yet a single `parseVideoTitle` call
strips all three: the parsed song text is "song" and retains neither
inner decoration. -/
theorem parseVideoTitle_strips_stacked :
    (parseVideoTitle "song (radio edit) (4k) (hd)".data []).song = some "song".data ∧
    containsSub "(4k)".data "song".data = false ∧
    containsSub "(radio edit)".data "song".data = false := by with_unfolding_all decide

set_option maxRecDepth 40000 in
/-- C4 amended: title cleaning removes, for each known decoration, at
most one trailing occurrence per call — for every decoration in
`COMMON_SUFFIXES`, a title ending in three stacked copies of it keeps
the inner two — but distinct stacked decorations may each be removed in
the same call (one pass per decoration, in list order). -/
theorem cleanTitle_keeps_inner_identical_decorations :
    (COMMON_SUFFIXES.all fun d =>
      cleanTitle ("love story ".data ++ d ++ [' '] ++ d ++ [' '] ++ d) ==
        "love story ".data ++ d ++ [' '] ++ d) = true := by with_unfolding_all decide

/-- C2 counterexample: for the tag list ["zzz"] no genre profile matches,
so the spec's step function demands confidence 0.3, but the code keys the
step function on the tag-list length and returns 0.6. -/
theorem confidence_not_matched_profile_step :
    (matchedProfiles ["zzz".data]).length = 0 ∧
    (inferAudioFeatures none none ["zzz".data]).confidence ≠
      specConfidenceOfMatched (matchedProfiles ["zzz".data]).length := by
  with_unfolding_all decide

/-- C2 amended: for every input with a nonempty genre tag list, the
confidence equals the step function of the number of genre *tags*
(1 → 0.6, 2 → 0.7, ≥3 → 0.8), and is unaffected by the title-keyword
adjustments (which never touch the confidence field). -/
theorem inferAudioFeatures_confidence (artist song : Option JStr) (genres : List JStr)
    (h : genres ≠ []) :
    (inferAudioFeatures artist song genres).confidence =
      (if genres.length = 1 then (0.6 : ℚ) else if 3 ≤ genres.length then 0.8 else 0.7) := by
  unfold inferAudioFeatures
  rw [if_neg h]
  show genreConfidence genres = _
  unfold genreConfidence
  rw [if_neg (by simpa using h)]

/-- Witness for the amended C2 theorem at the single tag "pop". -/
theorem inferAudioFeatures_confidence_witness :
    (inferAudioFeatures none none ["pop".data]).confidence = 0.6 := by
  have h := inferAudioFeatures_confidence none none ["pop".data] (by decide)
  simpa using h

lemma insertCmp_perm (c : SVideo → SVideo → ℤ) (x : SVideo) (l : List SVideo) :
    (insertCmp c x l).Perm (x :: l) := by
  induction l with
  | nil => exact List.Perm.refl _
  | cons y ys ih =>
    unfold insertCmp
    by_cases h : c y x < 0
    · rw [if_pos h]
      exact (ih.cons y).trans (List.Perm.swap x y ys)
    · rw [if_neg h]

lemma sortWithCmp_perm (c : SVideo → SVideo → ℤ) (l : List SVideo) :
    (sortWithCmp c l).Perm l := by
  induction l with
  | nil => exact List.Perm.refl _
  | cons x xs ih => exact (insertCmp_perm c x (sortWithCmp c xs)).trans (ih.cons x)

/-- C8: `sortByFeelsScore` returns a list of the same length holding
exactly the elements of the input (a permutation); the input itself is
untouched — the source sorts a spread copy `[...videos]`, and the model
is a pure function of the input list.  This covers the empty list. -/
theorem sortByFeelsScore_length_and_elements (videos : List SVideo) (order : String) :
    (sortByFeelsScore videos order).length = videos.length ∧
    (sortByFeelsScore videos order).Perm videos := by
  unfold sortByFeelsScore
  by_cases h : videos = []
  · subst h; simp
  · rw [if_neg h]
    exact ⟨(sortWithCmp_perm _ _).length_eq, sortWithCmp_perm _ _⟩

lemma jsRound_intCast (z : ℤ) : jsRound (z : ℚ) = z := by
  unfold jsRound
  rw [Int.floor_eq_iff]
  constructor
  · linarith
  · linarith

/-- C9: an item whose `feelsScore` is a falsy value — `0` as well as an
absent/null field — is compared by `sortByFeelsScore` exactly as an item
scored 50, and `getScoreDistribution` counts it as 50 in the average,
min, max and band counts: it lands in the moderate band, not chill. -/
theorem falsy_score_counts_as_50 (v : SVideo)
    (h : v.feelsScore = some 0 ∨ v.feelsScore = none) :
    effScore v = 50 ∧
    (∀ u order, sortCmp order v u = sortCmp order ⟨v.tag, some 50⟩ u ∧
      sortCmp order u v = sortCmp order u ⟨v.tag, some 50⟩) ∧
    (getScoreDistribution [v]).average = 50 ∧
    (getScoreDistribution [v]).min = 50 ∧
    (getScoreDistribution [v]).max = 50 ∧
    (getScoreDistribution [v]).ranges.moderate = 1 ∧
    (getScoreDistribution [v]).ranges.chill = 0 := by
  have he : effScore v = 50 := by
    rcases h with h | h <;> simp [effScore, h]
  have he50 : effScore ⟨v.tag, some 50⟩ = 50 := by simp [effScore]
  have hd : getScoreDistribution [v] =
      ⟨1, 50, 50, 50, ⟨0, 0, 1, 0, 0⟩⟩ := by
    unfold getScoreDistribution
    rw [if_neg (by simp)]
    simp only [List.map_cons, List.map_nil, he, minScores, maxScores]
    norm_num
    exact jsRound_intCast 50
  refine ⟨he, fun u order => ⟨?_, ?_⟩, ?_, ?_, ?_, ?_, ?_⟩
  · simp [sortCmp, he, he50]
  · simp [sortCmp, he, he50]
  · rw [hd]
  · rw [hd]
  · rw [hd]
  · rw [hd]
  · rw [hd]

/-- Witness for C9 at a concrete item with `feelsScore = 0`. -/
theorem falsy_score_counts_as_50_witness :
    effScore ⟨0, some 0⟩ = 50 ∧
    (getScoreDistribution [⟨0, some 0⟩]).ranges.moderate = 1 ∧
    (getScoreDistribution [⟨0, some 0⟩]).ranges.chill = 0 := by
  have h := falsy_score_counts_as_50 ⟨0, some 0⟩ (Or.inl rfl)
  exact ⟨h.1, h.2.2.2.2.2.1, h.2.2.2.2.2.2⟩

/-- C10: in memory mode, a stored but falsy value (0, empty string,
false, null) under an unexpired key is read back as null by
`getFromMemory` (hence by `get`), indistinguishable from a miss. -/
theorem getFromMemory_falsy_value_null (now : ℤ) (st : CacheState) (key : String) (v : JsVal)
    (hv : lookupA st.memoryCache key = some v) (hf : truthy v = false)
    (hexp : ∀ e, lookupA st.ttlMap key = some e → ¬(e ≠ 0 ∧ now > e)) :
    (getFromMemory now st key).1 = JsVal.vNull := by
  unfold getFromMemory
  cases hl : lookupA st.ttlMap key with
  | none => simp [hl, hv, hf]
  | some e =>
    simp only [hl]
    rw [if_neg (hexp e hl)]
    simp [hv, hf]

/-- Witness for C10: key "k" holds the falsy number 0 with a live TTL. -/
theorem getFromMemory_falsy_value_null_witness :
    (getFromMemory 50 ⟨[("k", JsVal.vNum 0)], [("k", 100)]⟩ "k").1 = JsVal.vNull := by
  refine getFromMemory_falsy_value_null 50 _ "k" (JsVal.vNum 0) ?_ ?_ ?_
  · with_unfolding_all decide
  · with_unfolding_all decide
  · intro e he
    simp [lookupA] at he
    subst he
    omega

lemma lookupA_removeA_self {β : Type} (m : List (String × β)) (key : String) :
    lookupA (removeA m key) key = none := by
  induction m with
  | nil => rfl
  | cons p ps ih =>
    by_cases h : p.1 = key
    · have hf : removeA (p :: ps) key = removeA ps key := by
        simp [removeA, List.filter_cons, h]
      rw [hf]
      exact ih
    · have hf : removeA (p :: ps) key = p :: removeA ps key := by
        simp [removeA, List.filter_cons, h]
      rw [hf]
      unfold lookupA
      rw [List.find?_cons_of_neg _ (by simpa using h)]
      exact ih

lemma lookupA_removeA_ne {β : Type} (m : List (String × β)) (k key : String) (h : k ≠ key) :
    lookupA (removeA m key) k = lookupA m k := by
  induction m with
  | nil => rfl
  | cons p ps ih =>
    by_cases hp : p.1 = key
    · have hf : removeA (p :: ps) key = removeA ps key := by
        simp [removeA, List.filter_cons, hp]
      rw [hf, ih]
      unfold lookupA
      rw [List.find?_cons_of_neg _ (by simp [hp]; exact Ne.symm h)]
    · have hf : removeA (p :: ps) key = p :: removeA ps key := by
        simp [removeA, List.filter_cons, hp]
      rw [hf]
      unfold lookupA
      by_cases hk : p.1 = k
      · rw [List.find?_cons_of_pos _ (by simpa using hk),
          List.find?_cons_of_pos _ (by simpa using hk)]
      · rw [List.find?_cons_of_neg _ (by simpa using hk),
          List.find?_cons_of_neg _ (by simpa using hk)]
        exact ih

lemma getFromMemory_fst_of_expiredOrGone (now : ℤ) (st : CacheState) (key : String)
    (h : expiredOrGone now st key) : (getFromMemory now st key).1 = JsVal.vNull := by
  unfold getFromMemory
  rcases h with ⟨e, he, h0, hn⟩ | h
  · simp only [he]
    rw [if_pos ⟨h0, hn⟩]
  · cases hl : lookupA st.ttlMap key with
    | none => simp [hl, h]
    | some e =>
      simp only [hl]
      by_cases hc : e ≠ 0 ∧ now > e
      · rw [if_pos hc]
      · rw [if_neg hc]
        simp [h]

lemma getFromMemory_snd_preserves (now : ℤ) (st : CacheState) (key k : String)
    (h : expiredOrGone now st key) : expiredOrGone now (getFromMemory now st k).2 key := by
  unfold getFromMemory
  cases hl : lookupA st.ttlMap k with
  | none =>
    cases hm : lookupA st.memoryCache k <;> simpa [hl, hm] using h
  | some e =>
    simp only [hl]
    by_cases hc : e ≠ 0 ∧ now > e
    · rw [if_pos hc]
      by_cases hk : k = key
      · subst hk
        exact Or.inr (lookupA_removeA_self _ _)
      · have hne : key ≠ k := fun hx => hk hx.symm
        rcases h with ⟨e2, he2, h02, hn2⟩ | h2
        · exact Or.inl ⟨e2, by rwa [lookupA_removeA_ne _ _ _ hne], h02, hn2⟩
        · exact Or.inr (by rwa [lookupA_removeA_ne _ _ _ hne])
    · rw [if_neg hc]
      cases hm : lookupA st.memoryCache k <;> simpa [hm] using h

lemma mget_expired_positions (now : ℤ) (key : String) :
    ∀ (keys : List String) (st : CacheState), expiredOrGone now st key →
      ∀ i : ℕ, keys[i]? = some key → (mgetMemory now st keys).1[i]? = some JsVal.vNull := by
  intro keys
  induction keys with
  | nil => intro st h i hi; simp at hi
  | cons k ks ih =>
    intro st h i hi
    cases i with
    | zero =>
      simp only [List.getElem?_cons_zero, Option.some.injEq] at hi
      unfold mgetMemory
      simp only [List.getElem?_cons_zero, Option.some.injEq]
      rw [hi]
      exact getFromMemory_fst_of_expiredOrGone now st key h
    | succ n =>
      simp only [List.getElem?_cons_succ] at hi
      unfold mgetMemory
      simp only [List.getElem?_cons_succ]
      exact ih _ (getFromMemory_snd_preserves now st key k h) n hi

/-- C3 counterexample: at time 10 the key "k" expired at 5 and has not
been swept; `get` and `mget` hide it, but `exists` still reports true —
the claim demands false. -/
theorem exists_reports_expired_key :
    (10 : ℤ) > 5 ∧
    (getFromMemory 10 ⟨[("k", JsVal.vStr "x".data)], [("k", 5)]⟩ "k").1 = JsVal.vNull ∧
    (mgetMemory 10 ⟨[("k", JsVal.vStr "x".data)], [("k", 5)]⟩ ["k"]).1 = [JsVal.vNull] ∧
    existsKey ⟨[("k", JsVal.vStr "x".data)], [("k", 5)]⟩ "k" = true := by
  with_unfolding_all decide

/-- C3 amended: in memory mode an expired-but-unswept entry is invisible
to `get` and to `mget` (null at every position holding its key), but
`exists` checks only key presence and still returns true for it while it
remains in the backing map. -/
theorem expired_unswept_entry_visibility (now : ℤ) (st : CacheState) (key : String) (e : ℤ)
    (ht : lookupA st.ttlMap key = some e) (h0 : e ≠ 0) (hn : now > e) :
    (getFromMemory now st key).1 = JsVal.vNull ∧
    (∀ (keys : List String) (i : ℕ), keys[i]? = some key →
      (mgetMemory now st keys).1[i]? = some JsVal.vNull) ∧
    ((∃ v, lookupA st.memoryCache key = some v) → existsKey st key = true) := by
  have hx : expiredOrGone now st key := Or.inl ⟨e, ht, h0, hn⟩
  refine ⟨getFromMemory_fst_of_expiredOrGone now st key hx,
    fun keys i hi => mget_expired_positions now key keys st hx i hi, ?_⟩
  rintro ⟨v, hv⟩
  simp [existsKey, hv]

/-- Witness for the amended C3 theorem on a concrete expired state. -/
theorem expired_unswept_entry_visibility_witness :
    (getFromMemory 10 ⟨[("q", JsVal.vStr "y".data)], [("q", 5)]⟩ "q").1 = JsVal.vNull ∧
    (mgetMemory 10 ⟨[("q", JsVal.vStr "y".data)], [("q", 5)]⟩ ["q"]).1[0]? =
      some JsVal.vNull ∧
    existsKey ⟨[("q", JsVal.vStr "y".data)], [("q", 5)]⟩ "q" = true := by
  have h := expired_unswept_entry_visibility 10
    ⟨[("q", JsVal.vStr "y".data)], [("q", 5)]⟩ "q" 5
    (by with_unfolding_all decide) (by decide) (by decide)
  exact ⟨h.1, h.2.1 ["q"] 0 (by decide), h.2.2 ⟨JsVal.vStr "y".data, by with_unfolding_all decide⟩⟩

lemma genreMap_tight : ∀ p ∈ genreMap, tightBounds p.2 := by
  with_unfolding_all decide

lemma matched_tight (genres : List JStr) : ∀ g ∈ matchedProfiles genres, tightBounds g := by
  intro g hg
  unfold matchedProfiles at hg
  simp only [List.mem_map] at hg
  obtain ⟨p, hp, rfl⟩ := hg
  exact genreMap_tight p (List.mem_filter.mp hp).1

lemma avg_bounds (l : List ℚ) (a b : ℚ) (hne : l ≠ []) (h : ∀ x ∈ l, a ≤ x ∧ x ≤ b) :
    a ≤ l.sum / (l.length : ℚ) ∧ l.sum / (l.length : ℚ) ≤ b := by
  have hpos : (0 : ℚ) < (l.length : ℚ) := by
    exact_mod_cast List.length_pos.mpr hne
  have h1 : (l.length : ℚ) * a ≤ l.sum := by
    have := List.card_nsmul_le_sum l a fun x hx => (h x hx).1
    simpa [nsmul_eq_mul] using this
  have h2 : l.sum ≤ (l.length : ℚ) * b := by
    have := List.sum_le_card_nsmul l b fun x hx => (h x hx).2
    simpa [nsmul_eq_mul] using this
  constructor
  · rw [le_div_iff hpos]
    linarith
  · rw [div_le_iff hpos]
    linarith

lemma jsRound_bounds {x : ℚ} {a b : ℤ} (h1 : (a : ℚ) ≤ x) (h2 : x ≤ (b : ℚ)) :
    a ≤ jsRound x ∧ jsRound x ≤ b := by
  unfold jsRound
  constructor
  · rw [Int.le_floor]
    linarith
  · have hm : ⌊x + 1/2⌋ ≤ ⌊(b : ℚ) + 1/2⌋ := Int.floor_le_floor (by linarith)
    have hb : ⌊(b : ℚ) + 1/2⌋ = b := by
      rw [Int.floor_int_add]
      norm_num
    omega

lemma map_field_bounds (genres : List JStr) (f : GFeat → ℚ) (a b : ℚ)
    (hf : ∀ g, tightBounds g → a ≤ f g ∧ f g ≤ b) :
    ∀ x ∈ (matchedProfiles genres).map f, a ≤ x ∧ x ≤ b := by
  intro x hx
  simp only [List.mem_map] at hx
  obtain ⟨g, hg, rfl⟩ := hx
  exact hf g (matched_tight genres g hg)

lemma analyzeGenres_tight (genres : List JStr) : tightBounds (analyzeGenres genres) := by
  unfold analyzeGenres
  by_cases hm : matchedProfiles genres = []
  · rw [if_pos hm]
    with_unfolding_all decide
  · rw [if_neg hm]
    have hlen : ∀ f : GFeat → ℚ, ((matchedProfiles genres).map f) ≠ [] := by
      intro f hx
      exact hm (List.map_eq_nil.mp hx)
    have hcast : ∀ f : GFeat → ℚ,
        (((matchedProfiles genres).map f).length : ℚ) = ((matchedProfiles genres).length : ℚ) := by
      intro f
      rw [List.length_map]
    have hE := avg_bounds _ 0.2 1 (hlen GFeat.energy)
      (map_field_bounds genres GFeat.energy _ _ fun g hg => ⟨hg.1, hg.2.1⟩)
    have hT := avg_bounds _ 70 180 (hlen GFeat.tempo)
      (map_field_bounds genres GFeat.tempo _ _ fun g hg => ⟨hg.2.2.1, hg.2.2.2.1⟩)
    have hD := avg_bounds _ 0.2 0.92 (hlen GFeat.danceability)
      (map_field_bounds genres GFeat.danceability _ _ fun g hg =>
        ⟨hg.2.2.2.2.1, hg.2.2.2.2.2.1⟩)
    have hL := avg_bounds _ (-18) (-3) (hlen GFeat.loudness)
      (map_field_bounds genres GFeat.loudness _ _ fun g hg =>
        ⟨hg.2.2.2.2.2.2.1, hg.2.2.2.2.2.2.2.1⟩)
    have hV := avg_bounds _ 0.3 0.8 (hlen GFeat.valence)
      (map_field_bounds genres GFeat.valence _ _ fun g hg =>
        ⟨hg.2.2.2.2.2.2.2.2.1, hg.2.2.2.2.2.2.2.2.2.1⟩)
    have hA := avg_bounds _ 0.02 0.95 (hlen GFeat.acousticness)
      (map_field_bounds genres GFeat.acousticness _ _ fun g hg =>
        ⟨hg.2.2.2.2.2.2.2.2.2.2.1, hg.2.2.2.2.2.2.2.2.2.2.2⟩)
    rw [hcast GFeat.energy] at hE
    rw [hcast GFeat.tempo] at hT
    rw [hcast GFeat.danceability] at hD
    rw [hcast GFeat.loudness] at hL
    rw [hcast GFeat.valence] at hV
    rw [hcast GFeat.acousticness] at hA
    have hTi := jsRound_bounds (a := 70) (b := 180) (by exact_mod_cast hT.1) (by exact_mod_cast hT.2)
    have hTi1 : (70 : ℚ) ≤ ((jsRound (((matchedProfiles genres).map GFeat.tempo).sum /
        (((matchedProfiles genres).length : ℕ) : ℚ)) : ℤ) : ℚ) := by
      exact_mod_cast hTi.1
    have hTi2 : ((jsRound (((matchedProfiles genres).map GFeat.tempo).sum /
        (((matchedProfiles genres).length : ℕ) : ℚ)) : ℤ) : ℚ) ≤ 180 := by
      exact_mod_cast hTi.2
    exact ⟨hE.1, hE.2, hTi1, hTi2, hD.1, hD.2, hL.1, hL.2, hV.1, hV.2, hA.1, hA.2⟩

lemma min_add_mem {a b u x d : ℚ} (hax : a ≤ x) (hau : a ≤ u) (hub : u ≤ b) (had : 0 ≤ d) :
    a ≤ min u (x + d) ∧ min u (x + d) ≤ b :=
  ⟨le_min hau (by linarith), le_trans (min_le_left _ _) hub⟩

lemma max_sub_mem {a b l x d : ℚ} (hxb : x ≤ b) (hal : a ≤ l) (hlb : l ≤ b) (had : 0 ≤ d) :
    a ≤ max l (x - d) ∧ max l (x - d) ≤ b :=
  ⟨le_trans hal (le_max_left _ _), max_le hlb (by linarith)⟩

lemma looseBounds_energetic (b : Prop) [Decidable b] (g : GFeat) (h : looseBounds g) :
    looseBounds (if b then
      { g with energy := min 1 (g.energy + 0.2), loudness := min (-5) (g.loudness + 2) }
    else g) := by
  split_ifs with hb
  · obtain ⟨he1, he2, ht1, ht2, hd1, hd2, hl1, hl2, hv1, hv2, ha1, ha2⟩ := h
    have hE := min_add_mem (u := 1) (b := 1) (d := 0.2) he1 (by norm_num) (by norm_num)
      (by norm_num)
    have hL := min_add_mem (u := -5) (b := -3) (d := 2) hl1 (by norm_num) (by norm_num)
      (by norm_num)
    exact ⟨hE.1, hE.2, ht1, ht2, hd1, hd2, hL.1, hL.2, hv1, hv2, ha1, ha2⟩
  · exact h

lemma looseBounds_chill (b : Prop) [Decidable b] (g : GFeat) (h : looseBounds g) :
    looseBounds (if b then
      { g with energy := max 0.1 (g.energy - 0.2), tempo := max 60 (g.tempo - 20) }
    else g) := by
  split_ifs with hb
  · obtain ⟨he1, he2, ht1, ht2, hd1, hd2, hl1, hl2, hv1, hv2, ha1, ha2⟩ := h
    have hE := max_sub_mem (a := 0) (l := 0.1) (d := 0.2) he2 (by norm_num) (by norm_num)
      (by norm_num)
    have hT := max_sub_mem (a := 60) (l := 60) (d := 20) ht2 (by norm_num) (by norm_num)
      (by norm_num)
    exact ⟨hE.1, hE.2, hT.1, hT.2, hd1, hd2, hl1, hl2, hv1, hv2, ha1, ha2⟩
  · exact h

lemma looseBounds_happy (b : Prop) [Decidable b] (g : GFeat) (h : looseBounds g) :
    looseBounds (if b then { g with valence := min 1 (g.valence + 0.2) } else g) := by
  split_ifs with hb
  · obtain ⟨he1, he2, ht1, ht2, hd1, hd2, hl1, hl2, hv1, hv2, ha1, ha2⟩ := h
    have hV := min_add_mem (u := 1) (b := 1) (d := 0.2) hv1 (by norm_num) (by norm_num)
      (by norm_num)
    exact ⟨he1, he2, ht1, ht2, hd1, hd2, hl1, hl2, hV.1, hV.2, ha1, ha2⟩
  · exact h

lemma looseBounds_sad (b : Prop) [Decidable b] (g : GFeat) (h : looseBounds g) :
    looseBounds (if b then
      { g with valence := max 0.1 (g.valence - 0.3), energy := max 0.2 (g.energy - 0.1) }
    else g) := by
  split_ifs with hb
  · obtain ⟨he1, he2, ht1, ht2, hd1, hd2, hl1, hl2, hv1, hv2, ha1, ha2⟩ := h
    have hV := max_sub_mem (a := 0) (l := 0.1) (d := 0.3) hv2 (by norm_num) (by norm_num)
      (by norm_num)
    have hE := max_sub_mem (a := 0) (l := 0.2) (d := 0.1) he2 (by norm_num) (by norm_num)
      (by norm_num)
    exact ⟨hE.1, hE.2, ht1, ht2, hd1, hd2, hl1, hl2, hV.1, hV.2, ha1, ha2⟩
  · exact h

lemma looseBounds_acoustic (b : Prop) [Decidable b] (g : GFeat) (h : looseBounds g) :
    looseBounds (if b then { g with acousticness := min 1 (g.acousticness + 0.3) } else g) := by
  split_ifs with hb
  · obtain ⟨he1, he2, ht1, ht2, hd1, hd2, hl1, hl2, hv1, hv2, ha1, ha2⟩ := h
    have hA := min_add_mem (u := 1) (b := 1) (d := 0.3) ha1 (by norm_num) (by norm_num)
      (by norm_num)
    exact ⟨he1, he2, ht1, ht2, hd1, hd2, hl1, hl2, hv1, hv2, hA.1, hA.2⟩
  · exact h

lemma adjust_loose (song : Option JStr) (g : GFeat) (h : looseBounds g) :
    looseBounds (adjustForTitleKeywords song g) := by
  cases song with
  | none => exact h
  | some s =>
    simp only [adjustForTitleKeywords]
    by_cases hs : s = []
    · rw [if_pos hs]
      exact h
    · rw [if_neg hs]
      exact looseBounds_acoustic _ _ (looseBounds_sad _ _ (looseBounds_happy _ _
        (looseBounds_chill _ _ (looseBounds_energetic _ _ h))))

lemma tight_loose {g : GFeat} (h : tightBounds g) : looseBounds g := by
  obtain ⟨he1, he2, ht1, ht2, hd1, hd2, hl1, hl2, hv1, hv2, ha1, ha2⟩ := h
  refine ⟨by linarith, he2, by linarith, by linarith, by linarith, by linarith,
    by linarith, hl2, by linarith, by linarith, by linarith, by linarith⟩

lemma inferFromNames_loose (artist song : Option JStr) :
    looseBounds (inferFromNames artist song) := by
  unfold inferFromNames
  dsimp only
  split_ifs <;> with_unfolding_all decide

/-- C1 counterexample: the single tag "edm" matches only the edm
profile, whose loudness is -4 — outside the documented loudness bound
[-30, -5]. -/
theorem inferAudioFeatures_loudness_outside_docs :
    (inferAudioFeatures none none ["edm".data]).loudness = -4 ∧
    ¬ ((inferAudioFeatures none none ["edm".data]).loudness ≤ -5) := by
  with_unfolding_all decide

/-- C1 amended: for every input (any artist, song and genre tag list,
including the empty one), the returned FeatureVector is fully populated
and every dimension lies within its bound — energy, danceability,
valence, acousticness in [0,1], tempo in [60,200] — except that the
loudness bound is [-30,-3] rather than the documented [-30,-5] (several
genre profiles carry loudness -4 or -3). -/
theorem inferAudioFeatures_bounds (artist song : Option JStr) (genres : List JStr) :
    inferredInBounds (inferAudioFeatures artist song genres) := by
  unfold inferAudioFeatures
  by_cases hg : genres = []
  · rw [if_pos hg]
    exact inferFromNames_loose artist song
  · rw [if_neg hg]
    exact adjust_loose song _ (tight_loose (analyzeGenres_tight genres))

end FeelsMeter
